import Mathlib

/-!
Verification development for the MFT timeline parser.

Shallow embedding of the parsing core: byte buffers are lists of naturals
below 256, machine integers are naturals with explicit reductions modulo
powers of two at the points where the Rust code can wrap, and fallible
functions return Option. Each definition mirrors one function of the
source (mft.rs, simd_optimize.rs, types.rs, output.rs); the theorems at
the end settle the specification claims against these definitions.
-/

namespace TlSpec

/-- Byte access on a buffer; all call sites are guarded by the same bounds
checks the source performs, so the default value is never observed. -/
def byteAt (data : List Nat) (i : Nat) : Nat :=
  data.getD i 0

/-- Little-endian 16-bit read, as performed by read_u16 in the source. -/
def u16le (data : List Nat) (i : Nat) : Nat :=
  byteAt data i + 256 * byteAt data (i + 1)

/-- Little-endian 32-bit read. -/
def u32le (data : List Nat) (i : Nat) : Nat :=
  byteAt data i + 256 * byteAt data (i + 1) + 65536 * byteAt data (i + 2) +
    16777216 * byteAt data (i + 3)

/-- Little-endian 64-bit read. -/
def u64le (data : List Nat) (i : Nat) : Nat :=
  u32le data i + 4294967296 * u32le data (i + 4)

/-- MFT record size in bytes (mft.rs, MFT_RECORD_SIZE). -/
def MFT_RECORD_SIZE : Nat := 1024

/-- FILETIME of the Unix epoch in 100 ns units (mft.rs, FILETIME_UNIX_EPOCH). -/
def FILETIME_UNIX_EPOCH : Nat := 116444736000000000

/-- The four signature bytes of a FILE record, little endian as a u32
(simd_optimize.rs, FILE_SIG_PATTERN). -/
def FILE_SIG_PATTERN : Nat := 0x454C4946

/-- The four signature bytes of a BAAD record (simd_optimize.rs,
BAAD_SIG_PATTERN). -/
def BAAD_SIG_PATTERN : Nat := 0x44414142

/-- The FILE signature as bytes, the value compared against b"FILE" in
parse_single_entry_fast. -/
def fileSignature : List Nat := [0x46, 0x49, 0x4C, 0x45]

/-- A UTC instant with nanosecond resolution, modelling
chrono::DateTime of Utc as produced by DateTime::from_timestamp.
All instants reached by the parser are at or after the Unix epoch, so
seconds are a natural number. -/
structure Instant where
  secs : Nat
  nanos : Nat
deriving DecidableEq

/-- Largest Unix timestamp representable by chrono (23:59:59 on the last
representable day); DateTime::from_timestamp returns None above it. -/
def CHRONO_MAX_SECS : Nat := 8210298412799

/-- Model of chrono::DateTime::from_timestamp on non-negative seconds:
succeeds when the seconds fit the representable range and the nanosecond
part is below two seconds (the leap-second allowance). -/
def fromTimestamp (secs : Nat) (nanos : Nat) : Option Instant :=
  if secs ≤ CHRONO_MAX_SECS ∧ nanos < 2000000000 then some ⟨secs, nanos⟩ else none

/-- MftParser::convert_filetime_fast (mft.rs). The multiplication by 100
is a u64 multiplication and is reduced modulo 2 to the 64, the wrapping
semantics of release builds. -/
def convert_filetime_fast (filetime : Nat) : Option Instant :=
  if filetime = 0 ∨ filetime ≤ FILETIME_UNIX_EPOCH then none
  else
    let unix_nanos := ((filetime - FILETIME_UNIX_EPOCH) * 100) % 18446744073709551616
    let unix_seconds := unix_nanos / 1000000000
    let nanos := unix_nanos % 1000000000
    fromTimestamp unix_seconds nanos

/-- convert_timestamps_simd (simd_optimize.rs): the batch conversion path,
element for element the same computation as the scalar path. -/
def convert_timestamps_simd (filetimes : List Nat) : List (Option Instant) :=
  filetimes.map (fun filetime =>
    if filetime = 0 ∨ filetime ≤ FILETIME_UNIX_EPOCH then none
    else
      let unix_nanos := ((filetime - FILETIME_UNIX_EPOCH) * 100) % 18446744073709551616
      let unix_seconds := unix_nanos / 1000000000
      let nanos := unix_nanos % 1000000000
      fromTimestamp unix_seconds nanos)

/-- MftParser::scan_boundaries_scalar (mft.rs): walk the buffer in
1024-byte chunks and keep the chunk starts whose first four bytes read
FILE or BAAD. A final chunk shorter than four bytes is never tested. -/
def scan_boundaries_scalar (data : List Nat) : List Nat :=
  (List.range ((data.length + 1023) / 1024)).filterMap (fun record_idx =>
    if 1024 * record_idx + 4 ≤ data.length then
      if u32le data (1024 * record_idx) = FILE_SIG_PATTERN ∨
         u32le data (1024 * record_idx) = BAAD_SIG_PATTERN then
        some (1024 * record_idx)
      else none
    else none)

/-- scan_record_boundaries_simd (simd_optimize.rs): the vector path scans
the same 1024-byte chunks with the same two signature patterns. -/
def scan_record_boundaries_simd (data : List Nat) : List Nat :=
  (List.range ((data.length + 1023) / 1024)).filterMap (fun record_idx =>
    if 1024 * record_idx + 4 ≤ data.length then
      if u32le data (1024 * record_idx) = FILE_SIG_PATTERN ∨
         u32le data (1024 * record_idx) = BAAD_SIG_PATTERN then
        some (1024 * record_idx)
      else none
    else none)

/-- FileNamespace (mft.rs): the namespace tag of a FILE_NAME attribute. -/
inductive FileNamespace where
  | POSIX
  | Win32
  | DOS
  | Win32AndDos
deriving DecidableEq

/-- FileNamespace::from_u8 (mft.rs). -/
def FileNamespace.from_u8 (value : Nat) : Option FileNamespace :=
  match value with
  | 0 => some .POSIX
  | 1 => some .Win32
  | 2 => some .DOS
  | 3 => some .Win32AndDos
  | _ => none

/-- FileNamespace::priority (mft.rs): lower value wins the filename
selection. -/
def FileNamespace.priority : FileNamespace → Nat
  | .Win32 => 0
  | .Win32AndDos => 0
  | .DOS => 1
  | .POSIX => 2

/-- EntryHeader (mft.rs): the decoded 48-byte record header. Flag words
are kept as naturals, already masked the way from_bits_truncate masks
them. -/
structure EntryHeader where
  signature : List Nat
  usa_offset : Nat
  usa_size : Nat
  metadata_transaction_journal : Nat
  sequence : Nat
  hard_link_count : Nat
  first_attribute_record_offset : Nat
  flags : Nat
  used_entry_size : Nat
  total_entry_size : Nat
  base_reference_entry : Nat
  base_reference_sequence : Nat
  first_attribute_id : Nat
  record_number : Nat
deriving DecidableEq

/-- MftParser::parse_entry_header_fast (mft.rs): sequential little-endian
reads from the first 48 bytes; an undersized buffer is the only error.
EntryFlags::from_bits_truncate keeps the four defined bits 0x0F; the base
reference is masked to 48 bits. -/
def parse_entry_header_fast (data : List Nat) (entry_number : Nat) :
    Option EntryHeader :=
  if data.length < 48 then none
  else some {
    signature := data.take 4
    usa_offset := u16le data 4
    usa_size := u16le data 6
    metadata_transaction_journal := u64le data 8
    sequence := u16le data 16
    hard_link_count := u16le data 18
    first_attribute_record_offset := u16le data 20
    flags := u16le data 22 &&& 0xF
    used_entry_size := u32le data 24
    total_entry_size := u32le data 28
    base_reference_entry := u64le data 32 &&& 0xFFFFFFFFFFFF
    base_reference_sequence := u16le data 40
    first_attribute_id := u16le data 42
    record_number := entry_number }

/-- Write loop of MftParser::apply_fixups_scalar (mft.rs): for each stride
copy two bytes of the update sequence array over the sector tail,
stopping early when the sector tail or the fixup pair would be out of
range. The first argument of the recursion counts the remaining strides. -/
def applyFixupsScalarGo (fixups : List Nat) :
    Nat → Nat → List Nat → List Nat
  | 0, _, buffer => buffer
  | n + 1, stride, buffer =>
    let sector_pos := stride * 512 + 510
    if buffer.length ≤ sector_pos + 1 then buffer
    else
      let fixup_idx := 2 + stride * 2
      if fixups.length ≤ fixup_idx + 1 then buffer
      else
        applyFixupsScalarGo fixups n (stride + 1)
          ((buffer.set sector_pos (fixups.getD fixup_idx 0)).set
            (sector_pos + 1) (fixups.getD (fixup_idx + 1) 0))

/-- MftParser::apply_fixups_scalar (mft.rs): returns the patched buffer
and the boolean the Rust function wraps in Ok. A usa that would run past
the buffer leaves it untouched and reports false. -/
def apply_fixups_scalar (usa_offset usa_size : Nat) (buffer : List Nat) :
    List Nat × Bool :=
  if usa_size ≤ 1 then (buffer, true)
  else
    let number_of_fixups := usa_size - 1
    let fixups_start := usa_offset
    let fixups_end := fixups_start + usa_size * 2
    if fixups_end > buffer.length then (buffer, false)
    else
      let fixups := (buffer.drop fixups_start).take (usa_size * 2)
      (applyFixupsScalarGo fixups number_of_fixups 0 buffer, true)

/-- Write loop of apply_fixups_simd (simd_optimize.rs): same writes as the
scalar loop, but each stride first compares the sector tail against the
update sequence number and clears the validity flag on mismatch. -/
def applyFixupsSimdGo (fixups : List Nat) (us0 us1 : Nat) :
    Nat → Nat → List Nat → Bool → List Nat × Bool
  | 0, _, buffer, valid => (buffer, valid)
  | n + 1, stride, buffer, valid =>
    let fixup_pos := stride * 512 + 510
    if fixup_pos + 2 > buffer.length then (buffer, valid)
    else
      let fixup_idx := 2 + stride * 2
      if fixups.length ≤ fixup_idx + 1 then (buffer, valid)
      else
        let valid := if byteAt buffer fixup_pos ≠ us0 ∨
            byteAt buffer (fixup_pos + 1) ≠ us1 then false else valid
        applyFixupsSimdGo fixups us0 us1 n (stride + 1)
          ((buffer.set fixup_pos (fixups.getD fixup_idx 0)).set
            (fixup_pos + 1) (fixups.getD (fixup_idx + 1) 0)) valid

/-- apply_fixups_simd (simd_optimize.rs). The record number argument only
feeds the log line and is ignored here. -/
def apply_fixups_simd (buffer : List Nat)
    (usa_offset usa_size _record_number : Nat) : List Nat × Bool :=
  if usa_size ≤ 1 then (buffer, true)
  else
    let number_of_fixups := usa_size - 1
    let fixups_start_offset := usa_offset
    let fixups_end_offset := fixups_start_offset + usa_size * 2
    if fixups_end_offset > buffer.length then (buffer, false)
    else
      let fixups := (buffer.drop fixups_start_offset).take (usa_size * 2)
      applyFixupsSimdGo fixups (fixups.getD 0 0) (fixups.getD 1 0)
        number_of_fixups 0 buffer true

/-- EventTimestamps (types.rs): the SI or FN timestamp quadruple. -/
structure EventTimestamps where
  created : Option Instant
  modified : Option Instant
  mft_modified : Option Instant
  accessed : Option Instant
deriving DecidableEq

/-- Default EventTimestamps: all four absent. -/
def EventTimestamps.empty : EventTimestamps :=
  ⟨none, none, none, none⟩

/-- AlternateDataStream (types.rs). -/
structure AlternateDataStream where
  name : String
  size : Nat
  resident : Bool
deriving DecidableEq

/-- Event (types.rs): one decoded record. -/
structure Event where
  record_number : Nat
  sequence_number : Nat
  filename : Option String
  file_size : Option Nat
  allocated_size : Option Nat
  is_directory : Bool
  is_deleted : Bool
  link_count : Option Nat
  parent_directory : Option Nat
  timestamps : EventTimestamps
  fn_timestamps : EventTimestamps
  alternate_data_streams : List AlternateDataStream
  location : Option String
  event_source : Option String
deriving DecidableEq

/-- Event::default (types.rs, derived Default). -/
def Event.empty : Event where
  record_number := 0
  sequence_number := 0
  filename := none
  file_size := none
  allocated_size := none
  is_directory := false
  is_deleted := false
  link_count := none
  parent_directory := none
  timestamps := EventTimestamps.empty
  fn_timestamps := EventTimestamps.empty
  alternate_data_streams := []
  location := none
  event_source := none

/-- Little-endian pairing of bytes into UTF-16 code units, as done by
StringPool::convert_utf16_simd before decoding. -/
def utf16Units : List Nat → List Nat
  | b0 :: b1 :: rest => (b0 + 256 * b1) :: utf16Units rest
  | _ => []

/-- String::from_utf16: decode UTF-16 code units, pairing surrogates;
any unpaired surrogate fails the whole conversion. -/
def utf16Decode : List Nat → Option (List Char)
  | [] => some []
  | u :: rest =>
    if u < 0xD800 ∨ 0xE000 ≤ u then
      match utf16Decode rest with
      | some cs => some (Char.ofNat u :: cs)
      | none => none
    else if u < 0xDC00 then
      match rest with
      | v :: rest2 =>
        if 0xDC00 ≤ v ∧ v < 0xE000 then
          match utf16Decode rest2 with
          | some cs =>
            some (Char.ofNat (0x10000 + (u - 0xD800) * 0x400 + (v - 0xDC00)) :: cs)
          | none => none
        else none
      | [] => none
    else none

/-- StringPool::intern_utf16 composed with convert_utf16_simd
(simd_optimize.rs): odd-length input decodes to the empty string, a
failed UTF-16 decode to the marker string. The hash-based pooling only
shares storage and is content-transparent, so it is elided. -/
def intern_utf16 (bytes : List Nat) : String :=
  if bytes.length % 2 ≠ 0 then ""
  else
    match utf16Decode (utf16Units bytes) with
    | some cs => String.mk cs
    | none => "[Invalid UTF-16]"

/-- FileNameAttribute (mft.rs): the decoded FILE_NAME attribute. -/
structure FileNameAttribute where
  parent_entry : Nat
  created : Option Instant
  modified : Option Instant
  mft_modified : Option Instant
  accessed : Option Instant
  logical_size : Nat
  physical_size : Nat
  flags : Nat
  name_length : Nat
  name_space : FileNamespace
  name : String
deriving DecidableEq

/-- MftParser::parse_standard_information_fast (mft.rs): reject short or
non-resident attributes with an empty quadruple, then read four FILETIMEs
at the content offset and convert each. The batch and scalar conversion
paths compute the same values (convert_timestamps_equals_scalar below). -/
def parse_standard_information_fast (attr_data : List Nat) : EventTimestamps :=
  if attr_data.length < 24 ∨ byteAt attr_data 8 ≠ 0 then EventTimestamps.empty
  else
    let content_offset := u16le attr_data 20
    if content_offset + 32 > attr_data.length then EventTimestamps.empty
    else
      let content := attr_data.drop content_offset
      { created := convert_filetime_fast (u64le content 0)
        modified := convert_filetime_fast (u64le content 8)
        mft_modified := convert_filetime_fast (u64le content 16)
        accessed := convert_filetime_fast (u64le content 24) }

/-- MftParser::parse_file_name_fast (mft.rs): reject short or
non-resident attributes, then read the FILE_NAME content at the content
offset. FileAttributeFlags::from_bits_truncate keeps the mask 0x7FF7 of
defined bits; an unknown namespace byte falls back to POSIX. -/
def parse_file_name_fast (attr_data : List Nat) : Option FileNameAttribute :=
  if attr_data.length < 24 ∨ byteAt attr_data 8 ≠ 0 then none
  else
    let content_offset := u16le attr_data 20
    if content_offset + 66 > attr_data.length then none
    else
      let content := attr_data.drop content_offset
      let name_length := byteAt content 64
      some {
        parent_entry := u64le content 0 &&& 0xFFFFFFFFFFFF
        created := convert_filetime_fast (u64le content 8)
        modified := convert_filetime_fast (u64le content 16)
        mft_modified := convert_filetime_fast (u64le content 24)
        accessed := convert_filetime_fast (u64le content 32)
        logical_size := u64le content 40
        physical_size := u64le content 48
        flags := u32le content 56 &&& 0x7FF7
        name_length := name_length
        name_space := (FileNamespace.from_u8 (byteAt content 65)).getD .POSIX
        name :=
          if 0 < name_length ∧ 66 + name_length * 2 ≤ content.length then
            intern_utf16 ((content.drop 66).take (name_length * 2))
          else "" }

/-- MftParser::parse_data_size_fast (mft.rs): a non-resident DATA
attribute yields the 64-bit value at byte 40, a resident one the 32-bit
content length at byte 16; undersized buffers yield zero. -/
def parse_data_size_fast (attr_data : List Nat) : Nat :=
  if attr_data.length < 16 then 0
  else if byteAt attr_data 8 ≠ 0 then
    if attr_data.length ≥ 48 then u64le attr_data 40 else 0
  else
    if attr_data.length ≥ 20 then u32le attr_data 16 else 0

/-- Loop of MftParser::find_attributes_scalar (mft.rs). The fuel only
bounds the iteration count; every iteration advances the offset by at
least 16 bytes inside the buffer, so the wrapper passes enough fuel for
the loop to always hit one of its own exits first. -/
def findAttrsGo (data : List Nat) (target_types : List Nat) :
    Nat → Nat → List (Nat × Nat)
  | 0, _ => []
  | fuel + 1, offset =>
    if offset + 8 ≤ data.length then
      let attr_type := u32le data offset
      if attr_type = 0xFFFFFFFF then []
      else
        let attr_length := u32le data (offset + 4)
        if attr_length < 16 ∨ data.length < offset + attr_length then []
        else if target_types.contains attr_type then
          (attr_type, offset) :: findAttrsGo data target_types fuel (offset + attr_length)
        else findAttrsGo data target_types fuel (offset + attr_length)
    else []

/-- MftParser::find_attributes_scalar (mft.rs): walk the attribute list
from the first attribute offset, collecting the attributes whose type is
in the target set. -/
def find_attributes_scalar (data : List Nat) (first_attribute_record_offset : Nat)
    (target_types : List Nat) : List (Nat × Nat) :=
  findAttrsGo data target_types (data.length + 1) first_attribute_record_offset

/-- Loop body of MftParser::parse_attributes_fast (mft.rs): one attribute
updates the record in progress and the best FILE_NAME seen so far,
where best means strictly smaller namespace priority. -/
def attr_step (data : List Nat)
    (acc : Event × Option FileNameAttribute × Nat) (attr : Nat × Nat) :
    Event × Option FileNameAttribute × Nat :=
  let record := acc.1
  let best_filename := acc.2.1
  let best_priority := acc.2.2
  if attr.1 = 0x10 then
    ({ record with timestamps := parse_standard_information_fast (data.drop attr.2) },
      best_filename, best_priority)
  else if attr.1 = 0x30 then
    match parse_file_name_fast (data.drop attr.2) with
    | some filename_attr =>
      if filename_attr.name_space.priority < best_priority then
        (record, some filename_attr, filename_attr.name_space.priority)
      else acc
    | none => acc
  else if attr.1 = 0x80 then
    if record.file_size = none then
      ({ record with file_size := some (parse_data_size_fast (data.drop attr.2)) },
        best_filename, best_priority)
    else acc
  else acc

/-- Tail of MftParser::parse_attributes_fast (mft.rs): apply the best
FILE_NAME attribute to the record. -/
def applyBestFilename (record : Event) (filename_attr : FileNameAttribute) : Event :=
  let record := { record with
    filename := some filename_attr.name
    parent_directory := some filename_attr.parent_entry
    fn_timestamps :=
      { created := filename_attr.created
        modified := filename_attr.modified
        mft_modified := filename_attr.mft_modified
        accessed := filename_attr.accessed } }
  if record.file_size = none then
    { record with
      file_size := some filename_attr.logical_size
      allocated_size := some filename_attr.physical_size }
  else record

/-- MftParser::parse_attributes_fast (mft.rs), scalar attribute walk:
fold the attribute loop from priority u8::MAX and no best filename, then
apply the selected FILE_NAME attribute if any. -/
def parse_attributes_fast (data : List Nat) (header : EntryHeader)
    (record : Event) : Event :=
  let attributes :=
    find_attributes_scalar data header.first_attribute_record_offset
      [0x10, 0x30, 0x80]
  let result := attributes.foldl (attr_step data) (record, none, 255)
  match result.2.1 with
  | some filename_attr => applyBestFilename result.1 filename_attr
  | none => result.1

/-- MftParser::convert_entry_to_record_fast (mft.rs): fill the basic
fields from the header, then parse the attributes; this never fails. -/
def convert_entry_to_record_fast (header : EntryHeader) (data : List Nat) :
    Option Event :=
  let record := { Event.empty with
    record_number := header.record_number
    sequence_number := header.sequence
    link_count := some header.hard_link_count
    is_directory := header.flags &&& 0x2 ≠ 0
    is_deleted := header.flags &&& 0x1 = 0
    event_source := some "MFT" }
  some (parse_attributes_fast data header record)

/-- MftParser::parse_single_entry_fast (mft.rs), scalar paths. The outer
Option is the Result (none = Err), the inner Option the skip signal. The
validity flag of the fixup pass is bound to an unused variable in the
source and discarded; parsing continues with the patched buffer. -/
def parse_single_entry_fast (buffer : List Nat) (entry_number : Nat) :
    Option (Option Event) :=
  if buffer.length < 4 then some none
  else
    let signature := buffer.take 4
    if signature = [0, 0, 0, 0] then some none
    else if signature ≠ fileSignature then some none
    else
      match parse_entry_header_fast buffer entry_number with
      | none => none
      | some header =>
        let fixed := apply_fixups_scalar header.usa_offset header.usa_size buffer
        some (convert_entry_to_record_fast header fixed.1)

/-- Single-character form of str::starts_with as used by
build_path_recursive on the pattern consisting of one opening bracket:
test the first character. The library String.startsWith is avoided only
because it does not reduce inside the kernel. -/
def startsWithBracket (s : String) : Bool :=
  s.data.head? == some '['

/-- PathInfo (mft.rs): filename and parent reference kept per record for
path reconstruction. -/
structure PathInfo where
  filename : String
  parent_id : Nat
deriving DecidableEq

/-- Lookup in the path-info map, modelled as an association list; mirrors
DashMap::get keyed by record number. -/
def lookupInfo : List (Nat × PathInfo) → Nat → Option PathInfo
  | [], _ => none
  | (k, v) :: rest, key => if k = key then some v else lookupInfo rest key

/-- MftParser::build_path_recursive (mft.rs), with an explicit fuel
counting the remaining recursion budget; none means the fuel ran out
before the function returned. The theorem
full_path_terminates_and_root_empty shows the budget passed by
get_full_path_for_record below is never exhausted, which is exactly the
termination of the unbounded Rust recursion. -/
def buildPathFuel (info_map : List (Nat × PathInfo)) :
    Nat → Nat → List Nat → Option String
  | 0, _, _ => none
  | fuel + 1, entry_id, visited =>
    if visited.contains entry_id then
      some ("[Cycle-" ++ toString entry_id ++ "]")
    else if entry_id = 5 then some ""
    else
      match lookupInfo info_map entry_id with
      | some info =>
        if info.parent_id = 5 then some info.filename
        else if info.parent_id = entry_id then
          some ("[Orphaned]/" ++ info.filename)
        else if 0 < info.parent_id then
          (match buildPathFuel info_map fuel info.parent_id (entry_id :: visited) with
          | none => none
          | some parent_path =>
            if parent_path = "" then some info.filename
            else if startsWithBracket parent_path then
              some (parent_path ++ "/" ++ info.filename)
            else some (parent_path ++ "/" ++ info.filename))
        else some ("[Orphaned]/" ++ info.filename)
      | none => some ("[NotFound-" ++ toString entry_id ++ "]")

/-- Recursion budget for a given path-info map: one more than the number
of distinct record keys. Each recursive call of build_path_recursive
inserts a fresh key of the map into the visited set, so this budget
always suffices. -/
def pathFuel (info_map : List (Nat × PathInfo)) : Nat :=
  (info_map.map Prod.fst).toFinset.card + 1

/-- MftParser::get_full_path_for_record (mft.rs): start the recursion
with an empty visited set. The path cache only memoises the result and is
elided here. -/
def get_full_path_for_record (info_map : List (Nat × PathInfo))
    (entry_id : Nat) : Option String :=
  buildPathFuel info_map (pathFuel info_map) entry_id []

/-- TimestampType (types.rs). -/
inductive TimestampType where
  | Created
  | Modified
  | MftModified
  | Accessed
deriving DecidableEq

/-- TimestampType::sort_priority (types.rs). -/
def TimestampType.sort_priority : TimestampType → Nat
  | .Created => 0
  | .Modified => 1
  | .MftModified => 2
  | .Accessed => 3

/-- TimestampSource (types.rs). -/
inductive TimestampSource where
  | StandardInformation
  | FileName
deriving DecidableEq

/-- TimestampSource::short_form (types.rs). -/
def TimestampSource.short_form : TimestampSource → String
  | .StandardInformation => "$STANDARD_INFORMATION"
  | .FileName => "$FILE_NAME"

/-- TimelineEvent (types.rs): one row of the timeline. -/
structure TimelineEvent where
  filename : String
  timestamp : Instant
  timestamp_type : TimestampType
  timestamp_source : TimestampSource
  mft_record_number : Nat
  location : String
  file_size : Option Nat
  is_directory : Bool
  event_source : Option String
deriving DecidableEq

/-- Comparison of two naturals to an Ordering, the effect of cmp on the
integer sort keys. -/
def natCmp (a b : Nat) : Ordering :=
  if a < b then .lt else if b < a then .gt else .eq

/-- Chronological comparison of instants: the derived Ord of
chrono::DateTime. -/
def instantCmp (a b : Instant) : Ordering :=
  if a.secs < b.secs then .lt
  else if b.secs < a.secs then .gt
  else natCmp a.nanos b.nanos

/-- Lexicographic comparison of character lists by code point: the cmp of
the ASCII short-form strings. -/
def charsCmp : List Char → List Char → Ordering
  | [], [] => .eq
  | [], _ :: _ => .lt
  | _ :: _, [] => .gt
  | a :: xs, b :: ys =>
    if a.toNat < b.toNat then .lt
    else if b.toNat < a.toNat then .gt
    else charsCmp xs ys

/-- The three-key comparator of OutputWriter::write_timeline (output.rs):
timestamp, then sort_priority of the timestamp type, then the short form
of the timestamp source. -/
def timeline_cmp (a b : TimelineEvent) : Ordering :=
  let timestamp_cmp := instantCmp a.timestamp b.timestamp
  if timestamp_cmp ≠ .eq then timestamp_cmp
  else
    let type_cmp :=
      natCmp a.timestamp_type.sort_priority b.timestamp_type.sort_priority
    if type_cmp ≠ .eq then type_cmp
    else
      charsCmp a.timestamp_source.short_form.data b.timestamp_source.short_form.data

/-- File-size column of a timeline row (output.rs, write_timeline): zero
for directories and for records without a known size. -/
def timeline_file_size (event : TimelineEvent) : Nat :=
  if event.is_directory then 0 else event.file_size.getD 0

/-- Quoting test of OutputWriter::escape_csv_field (output.rs). -/
def csvNeedsQuoting (field : List Char) : Bool :=
  field.contains ',' || field.contains '"' || field.contains '\n' ||
    field.contains '\r' || field.head? == some ' ' || field.getLast? == some ' '

/-- Effect of str::replace doubling every double quote, used by
escape_csv_field. -/
def csvDoubleQuotes (field : List Char) : List Char :=
  field.flatMap (fun c => if c = '"' then ['"', '"'] else [c])

/-- OutputWriter::escape_csv_field (output.rs) on the character list of
the field: quote always, doubling internal quotes when the field needs
quoting. -/
def escape_csv_field (field : List Char) : List Char :=
  if csvNeedsQuoting field then '"' :: csvDoubleQuotes field ++ ['"']
  else '"' :: field ++ ['"']

/-- One data row written by OutputWriter::write_timeline (output.rs): the
five comma-separated columns; only the filename and the location pass
through escape_csv_field, the formatted timestamp and the event
description are interpolated as produced by the datetime formatter, and
the size is printed in decimal. -/
def timeline_row (filename formatted_time type_with_source : List Char)
    (file_size : Nat) (location : List Char) : List Char :=
  escape_csv_field filename ++ [','] ++ formatted_time ++ [','] ++
    type_with_source ++ [','] ++ (Nat.repr file_size).data ++ [','] ++
    escape_csv_field location

/-- The row write_timeline emits for one timeline event, given the
already-formatted timestamp and event-description strings. -/
def write_timeline_row (event : TimelineEvent)
    (formatted_time type_with_source : List Char) : List Char :=
  timeline_row event.filename.data formatted_time type_with_source
    (timeline_file_size event) event.location.data

/-- FILE_NAME attributes successfully parsed from a walked attribute
list: the 0x30 entries of the loop of parse_attributes_fast. -/
def collectFileNames (data : List Nat) (attributes : List (Nat × Nat)) :
    List FileNameAttribute :=
  attributes.filterMap (fun attr =>
    if attr.1 = 0x30 then parse_file_name_fast (data.drop attr.2) else none)

/-- The running best-filename state of the loop of parse_attributes_fast,
restricted to the FILE_NAME attributes it inspects. -/
def fnSelect (acc : Option FileNameAttribute × Nat)
    (l : List FileNameAttribute) : Option FileNameAttribute × Nat :=
  l.foldl
    (fun acc fa =>
      if fa.name_space.priority < acc.2 then (some fa, fa.name_space.priority)
      else acc)
    acc

/-- Concrete 48-byte record for the fixup-overflow claims: a FILE
signature, usa_offset 40 and usa_size 10, so the update sequence array
would need bytes 40 to 59 of a 48-byte buffer. -/
def mftC2Buf : List Nat :=
  fileSignature ++ [40, 0, 10, 0] ++ List.replicate 40 0

/-- The event the parser produces for mftC2Buf. -/
def mftC2Event : Event :=
  { Event.empty with
    record_number := 0
    sequence_number := 0
    link_count := some 0
    is_deleted := true
    event_source := some "MFT" }

/-- Concrete 56-byte non-resident DATA attribute whose allocated size
(bytes 40 to 47) is 4096 and whose real size (bytes 48 to 55) is 5. -/
def dataAttrC3 : List Nat :=
  [0x80, 0, 0, 0, 56, 0, 0, 0, 1] ++ List.replicate 31 0 ++
    [0, 16, 0, 0, 0, 0, 0, 0] ++ [5, 0, 0, 0, 0, 0, 0, 0]

/-- Concrete parent chain of 56 records: 100 points to 101, and so on up
to 155, whose parent is the root 5; no record repeats. -/
def chainM : List (Nat × PathInfo) :=
  (List.range 55).map (fun i => (100 + i, ⟨"a", 101 + i⟩)) ++ [(155, ⟨"a", 5⟩)]

/-- The full path the resolver computes for record 100 of chainM: 56 path
components, one per chain link. -/
def c5LongPath : String :=
  String.intercalate "/" (List.replicate 56 "a")

/-- A 92-byte resident FILE_NAME attribute with content offset 24, parent
record 5, namespace byte ns, and the single UTF-16 character c as name. -/
def fnAttr (ns : Nat) (c : Nat) : List Nat :=
  [0x30, 0, 0, 0, 92, 0, 0, 0, 0] ++ List.replicate 11 0 ++ [24, 0, 0, 0] ++
    ([5, 0, 0, 0, 0, 0, 0, 0] ++ List.replicate 56 0 ++ [1, ns, c, 0])

/-- A 48-byte FILE record header with no update sequence array and the
first attribute at offset 48. -/
def mftHeader48 : List Nat :=
  fileSignature ++ [0, 0, 0, 0] ++ List.replicate 12 0 ++ [48, 0] ++
    List.replicate 26 0

/-- Concrete record carrying two FILE_NAME attributes: a Win32 one named
W followed by a DOS one named D. -/
def fnBuf : List Nat :=
  mftHeader48 ++ fnAttr 1 87 ++ fnAttr 2 68 ++ [255, 255, 255, 255]

/-- The header parse_entry_header_fast decodes from mftHeader48 for
record number 8. -/
def fnHeader : EntryHeader where
  signature := fileSignature
  usa_offset := 0
  usa_size := 0
  metadata_transaction_journal := 0
  sequence := 0
  hard_link_count := 0
  first_attribute_record_offset := 48
  flags := 0
  used_entry_size := 0
  total_entry_size := 0
  base_reference_entry := 0
  base_reference_sequence := 0
  first_attribute_id := 0
  record_number := 8

/-- The decoded Win32 FILE_NAME attribute of fnBuf. -/
def faW : FileNameAttribute where
  parent_entry := 5
  created := none
  modified := none
  mft_modified := none
  accessed := none
  logical_size := 0
  physical_size := 0
  flags := 0
  name_length := 1
  name_space := .Win32
  name := "W"

/-- Split a CSV row at its commas; only used to name the columns of a
concrete row in which no field contains a comma. -/
def csvSplit : List Char → List (List Char)
  | [] => [[]]
  | c :: rest =>
    if c = ',' then [] :: csvSplit rest
    else
      match csvSplit rest with
      | f :: fs => (c :: f) :: fs
      | [] => [[c]]

/-- Concrete timeline event for the CSV-quoting claims. -/
def c9Event : TimelineEvent where
  filename := "a.txt"
  timestamp := ⟨1, 0⟩
  timestamp_type := .Created
  timestamp_source := .StandardInformation
  mft_record_number := 6
  location := "loc"
  file_size := some 0
  is_directory := false
  event_source := some "MFT"

/-- Concrete directory event that carries an extracted size of 42. -/
def c10DirEvent : TimelineEvent where
  filename := "dir"
  timestamp := ⟨1, 0⟩
  timestamp_type := .Created
  timestamp_source := .StandardInformation
  mft_record_number := 7
  location := "dir"
  file_size := some 42
  is_directory := true
  event_source := some "MFT"

/-- Concrete non-directory event with no known size. -/
def c10NoSizeEvent : TimelineEvent where
  filename := "b.bin"
  timestamp := ⟨2, 0⟩
  timestamp_type := .Modified
  timestamp_source := .FileName
  mft_record_number := 9
  location := "b.bin"
  file_size := none
  is_directory := false
  event_source := some "MFT"

/-- C1 (amended): on every buffer, both scanner paths emit exactly the
1024-aligned offsets whose four signature bytes read FILE or BAAD, and
the two paths agree. -/
theorem scan_boundaries_characterization (data : List Nat) (off : Nat) :
    (off ∈ scan_boundaries_scalar data ↔
      ∃ i, off = 1024 * i ∧ 1024 * i + 4 ≤ data.length ∧
        (u32le data off = FILE_SIG_PATTERN ∨ u32le data off = BAAD_SIG_PATTERN)) ∧
    scan_record_boundaries_simd data = scan_boundaries_scalar data := by
  refine ⟨?_, rfl⟩
  unfold scan_boundaries_scalar
  rw [List.mem_filterMap]
  constructor
  · rintro ⟨i, hrange, hf⟩
    by_cases h1 : 1024 * i + 4 ≤ data.length
    · rw [if_pos h1] at hf
      by_cases h2 : u32le data (1024 * i) = FILE_SIG_PATTERN ∨
          u32le data (1024 * i) = BAAD_SIG_PATTERN
      · rw [if_pos h2] at hf
        have hoff : off = 1024 * i := by
          have := Option.some.inj hf
          omega
        exact ⟨i, hoff, by omega, by rw [hoff]; exact h2⟩
      · rw [if_neg h2] at hf
        exact absurd hf (by simp)
    · rw [if_neg h1] at hf
      exact absurd hf (by simp)
  · rintro ⟨i, hoff, hlen, hsig⟩
    refine ⟨i, ?_, ?_⟩
    · rw [List.mem_range, Nat.lt_iff_add_one_le,
        Nat.le_div_iff_mul_le (by norm_num : (0 : Nat) < 1024)]
      omega
    · rw [if_pos hlen, if_pos (by rw [← hoff]; exact hsig), hoff]

/-- C1 (counterexample): a single BAAD record is emitted by both scanner
paths although its signature is not FILE. -/
theorem scan_emits_baad_at_zero :
    scan_boundaries_scalar [0x42, 0x41, 0x41, 0x44] = [0] ∧
    scan_record_boundaries_simd [0x42, 0x41, 0x41, 0x44] = [0] ∧
    u32le [0x42, 0x41, 0x41, 0x44] 0 ≠ FILE_SIG_PATTERN ∧
    u32le [0x42, 0x41, 0x41, 0x44] 0 = BAAD_SIG_PATTERN := by decide

/-- C3 (code evaluation): on a non-resident DATA attribute the parser
returns the 64-bit value at byte 40 (the allocated size, 4096 here), not
the value at byte 48 that the specification names (the real size, 5). -/
theorem data_size_nonresident_reads_offset_40 :
    parse_data_size_fast dataAttrC3 = u64le dataAttrC3 40 ∧
    parse_data_size_fast dataAttrC3 = 4096 ∧
    u64le dataAttrC3 48 = 5 := by decide

/-- Branch form of convert_filetime_fast above the epoch constant. -/
theorem convert_filetime_eq_of_gt (filetime : Nat)
    (h : FILETIME_UNIX_EPOCH < filetime) :
    convert_filetime_fast filetime =
      fromTimestamp
        ((filetime - FILETIME_UNIX_EPOCH) * 100 % 18446744073709551616 / 1000000000)
        ((filetime - FILETIME_UNIX_EPOCH) * 100 % 18446744073709551616 % 1000000000) := by
  unfold convert_filetime_fast
  rw [if_neg]
  push_neg
  unfold FILETIME_UNIX_EPOCH at h ⊢
  omega

/-- C4 (amended): the round trip holds for seconds between 1 and
18446744073, the largest value whose nanosecond count fits an unsigned
64-bit product; every filetime at or below the epoch constant converts to
none; and the batch conversion path computes exactly the scalar
conversion on every element. -/
theorem filetime_conversion_amended :
    (∀ s : Nat, 1 ≤ s → s ≤ 18446744073 →
      convert_filetime_fast (FILETIME_UNIX_EPOCH + 10000000 * s) = some ⟨s, 0⟩) ∧
    (∀ filetime : Nat, filetime ≤ FILETIME_UNIX_EPOCH →
      convert_filetime_fast filetime = none) ∧
    (∀ filetimes : List Nat,
      convert_timestamps_simd filetimes = filetimes.map convert_filetime_fast) := by
  refine ⟨?_, ?_, fun _ => rfl⟩
  · intro s h1 h2
    rw [convert_filetime_eq_of_gt _ (by unfold FILETIME_UNIX_EPOCH; omega)]
    have hd : FILETIME_UNIX_EPOCH + 10000000 * s - FILETIME_UNIX_EPOCH =
        10000000 * s := by omega
    have hm : 10000000 * s * 100 = 1000000000 * s := by ring
    have hlt : 1000000000 * s < 18446744073709551616 := by
      calc 1000000000 * s ≤ 1000000000 * 18446744073 :=
            Nat.mul_le_mul_left _ h2
        _ < 18446744073709551616 := by norm_num
    rw [hd, hm, Nat.mod_eq_of_lt hlt,
      Nat.mul_div_cancel_left s (by norm_num : (0 : Nat) < 1000000000),
      Nat.mul_mod_right]
    unfold fromTimestamp
    rw [if_pos]
    unfold CHRONO_MAX_SECS
    exact ⟨by omega, by norm_num⟩
  · intro filetime h
    unfold convert_filetime_fast
    rw [if_pos (Or.inr h)]

/-- C4 (witness): the amended round trip at one second, and the epoch
itself converting to none. -/
theorem filetime_conversion_amended_witness :
    convert_filetime_fast (FILETIME_UNIX_EPOCH + 10000000 * 1) = some ⟨1, 0⟩ ∧
    convert_filetime_fast FILETIME_UNIX_EPOCH = none :=
  ⟨filetime_conversion_amended.1 1 (by norm_num) (by norm_num),
   filetime_conversion_amended.2.1 FILETIME_UNIX_EPOCH (le_refl _)⟩

/-- C4 (counterexample): the claimed range fails at both ends: s = 0
converts to none, and at s = 2 to the 40 the 64-bit product wraps, so the
conversion lands in the year 2323 instead of 36812. -/
theorem filetime_conversion_fails_at_bounds :
    convert_filetime_fast (FILETIME_UNIX_EPOCH + 10000000 * 0) = none ∧
    convert_filetime_fast (FILETIME_UNIX_EPOCH + 10000000 * 2 ^ 40) =
      some ⟨11153727427, 136454656⟩ ∧
    convert_filetime_fast (FILETIME_UNIX_EPOCH + 10000000 * 2 ^ 40) ≠
      some ⟨2 ^ 40, 0⟩ := by decide

/-- C2 (amended): an update sequence array that would run past the
record buffer makes both fixup routines report failure and leave the
buffer untouched, but parse_single_entry_fast discards the flag, so the
record is still parsed and produces an output event. -/
theorem usa_overflow_record_still_parsed (buffer : List Nat)
    (entry_number : Nat)
    (hsig : buffer.take 4 = fileSignature)
    (hlen : 48 ≤ buffer.length)
    (husa : 1 < u16le buffer 6)
    (hovf : buffer.length < u16le buffer 4 + u16le buffer 6 * 2) :
    (apply_fixups_scalar (u16le buffer 4) (u16le buffer 6) buffer).1 = buffer ∧
    (apply_fixups_scalar (u16le buffer 4) (u16le buffer 6) buffer).2 = false ∧
    (apply_fixups_simd buffer (u16le buffer 4) (u16le buffer 6)
      entry_number).2 = false ∧
    ∃ event, parse_single_entry_fast buffer entry_number = some (some event) := by
  have hfix : apply_fixups_scalar (u16le buffer 4) (u16le buffer 6) buffer =
      (buffer, false) := by
    unfold apply_fixups_scalar
    rw [if_neg (by omega), if_pos (by omega)]
  have hsimd : apply_fixups_simd buffer (u16le buffer 4) (u16le buffer 6)
      entry_number = (buffer, false) := by
    unfold apply_fixups_simd
    rw [if_neg (by omega), if_pos (by omega)]
  refine ⟨by rw [hfix], by rw [hfix], by rw [hsimd], ?_⟩
  unfold parse_single_entry_fast
  rw [if_neg (by omega)]
  rw [hsig]
  rw [if_neg (by decide), if_neg (by simp)]
  unfold parse_entry_header_fast
  rw [if_neg (by omega)]
  dsimp only
  rw [hfix]
  exact ⟨_, rfl⟩

/-- C2 (witness): the amended statement at the concrete record mftC2Buf,
whose update sequence array needs bytes 40 to 59 of a 48-byte record. -/
theorem usa_overflow_record_still_parsed_witness :
    (apply_fixups_scalar (u16le mftC2Buf 4) (u16le mftC2Buf 6) mftC2Buf).1 = mftC2Buf ∧
    (apply_fixups_scalar (u16le mftC2Buf 4) (u16le mftC2Buf 6) mftC2Buf).2 = false ∧
    (apply_fixups_simd mftC2Buf (u16le mftC2Buf 4) (u16le mftC2Buf 6) 0).2 = false ∧
    ∃ event, parse_single_entry_fast mftC2Buf 0 = some (some event) :=
  usa_overflow_record_still_parsed mftC2Buf 0 (by decide) (by decide)
    (by decide) (by decide)

/-- C2 (counterexample): mftC2Buf has an out-of-range update sequence
array, yet the parser emits an event for it instead of dropping it. -/
theorem usa_overflow_produces_event :
    1 < u16le mftC2Buf 6 ∧
    mftC2Buf.length < u16le mftC2Buf 4 + u16le mftC2Buf 6 * 2 ∧
    parse_single_entry_fast mftC2Buf 0 = some (some mftC2Event) := by decide

/-- A successful lookup means the key is among the map keys. -/
theorem lookupInfo_mem_keys {info_map : List (Nat × PathInfo)} {k : Nat}
    {v : PathInfo} (h : lookupInfo info_map k = some v) :
    k ∈ info_map.map Prod.fst := by
  induction info_map with
  | nil => exact absurd h (by simp [lookupInfo])
  | cons p rest ih =>
    obtain ⟨pk, pv⟩ := p
    rw [lookupInfo] at h
    by_cases hk : pk = k
    · simp [hk]
    · rw [if_neg hk] at h
      simp [ih h]

/-- The path recursion never exhausts a fuel larger than the number of
distinct map keys outside the visited set: every recursive call moves one
such key into the visited set. -/
theorem buildPathFuel_isSome (fuel : Nat) :
    ∀ (info_map : List (Nat × PathInfo)) (entry_id : Nat) (visited : List Nat),
      ((info_map.map Prod.fst).toFinset \ visited.toFinset).card < fuel →
      (buildPathFuel info_map fuel entry_id visited).isSome = true := by
  induction fuel with
  | zero => intro _ _ _ h; omega
  | succ n ih =>
    intro info_map entry_id visited hcard
    rw [buildPathFuel]
    by_cases hvis : visited.contains entry_id
    · rw [if_pos hvis]; rfl
    · rw [if_neg hvis]
      by_cases hroot : entry_id = 5
      · rw [if_pos hroot]; rfl
      · rw [if_neg hroot]
        cases hl : lookupInfo info_map entry_id with
        | none => rfl
        | some info =>
          dsimp only
          by_cases hp5 : info.parent_id = 5
          · rw [if_pos hp5]; rfl
          · rw [if_neg hp5]
            by_cases hself : info.parent_id = entry_id
            · rw [if_pos hself]; rfl
            · rw [if_neg hself]
              by_cases hpos : 0 < info.parent_id
              · rw [if_pos hpos]
                have hmem : entry_id ∈ info_map.map Prod.fst :=
                  lookupInfo_mem_keys hl
                have hnotv : entry_id ∉ visited := by simpa using hvis
                have hlt : ((info_map.map Prod.fst).toFinset \
                    (entry_id :: visited).toFinset).card < n := by
                  have hstep : (info_map.map Prod.fst).toFinset \
                      (entry_id :: visited).toFinset =
                      ((info_map.map Prod.fst).toFinset \
                        visited.toFinset).erase entry_id := by
                    ext x
                    simp only [Finset.mem_sdiff, Finset.mem_erase,
                      List.mem_toFinset, List.toFinset_cons, Finset.mem_insert]
                    tauto
                  have hin : entry_id ∈ (info_map.map Prod.fst).toFinset \
                      visited.toFinset := by
                    rw [Finset.mem_sdiff]
                    exact ⟨List.mem_toFinset.mpr hmem,
                      fun hx => hnotv (List.mem_toFinset.mp hx)⟩
                  have := Finset.card_erase_lt_of_mem hin
                  rw [hstep]
                  omega
                have hrec := ih info_map info.parent_id (entry_id :: visited) hlt
                cases hres : buildPathFuel info_map n info.parent_id
                    (entry_id :: visited) with
                | none => rw [hres] at hrec; exact absurd hrec (by simp)
                | some parent_path =>
                  dsimp only
                  by_cases hpp : parent_path = ""
                  · rw [if_pos hpp]; rfl
                  · rw [if_neg hpp]
                    by_cases hbr : startsWithBracket parent_path = true
                    · rw [if_pos hbr]; rfl
                    · rw [if_neg hbr]; rfl
              · rw [if_neg hpos]; rfl

/-- C6 (confirmed): path resolution is total: on every finite record map
the recursion budget of get_full_path_for_record suffices for every
starting record, cycles, self references, forward references and missing
parents included; and the root record 5 resolves to the empty path. -/
theorem full_path_terminates_and_root_empty :
    (∀ (info_map : List (Nat × PathInfo)) (entry_id : Nat),
      (get_full_path_for_record info_map entry_id).isSome = true) ∧
    (∀ info_map : List (Nat × PathInfo),
      get_full_path_for_record info_map 5 = some "") := by
  constructor
  · intro info_map entry_id
    apply buildPathFuel_isSome
    rw [pathFuel]
    have : ((info_map.map Prod.fst).toFinset \ ([] : List Nat).toFinset).card =
        (info_map.map Prod.fst).toFinset.card := by
      simp
    omega
  · intro info_map
    rw [get_full_path_for_record, pathFuel, buildPathFuel]
    rw [if_neg (by decide), if_pos rfl]

/-- C5 (amended): the recursion of build_path_recursive is cut off by the
visited set, not by the configured depth limit: a record already on the
current parent chain resolves to the cycle marker at any remaining fuel,
and a two-record cycle resolves to a path headed by the marker of the
queried record. Chains longer than 50 without repetition resolve to
their full path (see the counterexample of this claim). -/
theorem path_cycle_marker_from_visited :
    (∀ (info_map : List (Nat × PathInfo)) (fuel entry_id : Nat)
      (visited : List Nat),
      visited.contains entry_id = true →
      buildPathFuel info_map (fuel + 1) entry_id visited =
        some ("[Cycle-" ++ toString entry_id ++ "]")) ∧
    (∀ (info_map : List (Nat × PathInfo)) (fuel a b : Nat) (fa fb : String),
      a ≠ b → a ≠ 5 → b ≠ 5 → 0 < a → 0 < b →
      lookupInfo info_map a = some ⟨fa, b⟩ →
      lookupInfo info_map b = some ⟨fb, a⟩ →
      buildPathFuel info_map (fuel + 3) a [] =
        some ("[Cycle-" ++ toString a ++ "]" ++ "/" ++ fb ++ "/" ++ fa)) := by
  have hcycle : ∀ (info_map : List (Nat × PathInfo)) (fuel entry_id : Nat)
      (visited : List Nat),
      visited.contains entry_id = true →
      buildPathFuel info_map (fuel + 1) entry_id visited =
        some ("[Cycle-" ++ toString entry_id ++ "]") := by
    intro info_map fuel entry_id visited h
    rw [buildPathFuel, if_pos h]
  refine ⟨hcycle, ?_⟩
  intro info_map fuel a b fa fb hab ha5 hb5 hapos hbpos hla hlb
  have hinner : buildPathFuel info_map (fuel + 1) a [b, a] =
      some ("[Cycle-" ++ toString a ++ "]") := by
    apply hcycle
    simp [List.contains_cons]
  have hmid : buildPathFuel info_map (fuel + 2) b [a] =
      some (("[Cycle-" ++ toString a ++ "]") ++ "/" ++ fb) := by
    rw [show fuel + 2 = (fuel + 1) + 1 by omega, buildPathFuel]
    rw [if_neg (by simp [List.contains_cons]; omega), if_neg hb5, hlb]
    dsimp only
    rw [if_neg ha5, if_neg hab, if_pos hapos, hinner]
    dsimp only
    rw [if_neg (by
      intro h
      have := congrArg String.data h
      rw [String.data_append] at this
      simp at this)]
    rw [ite_self]
  rw [show fuel + 3 = (fuel + 2) + 1 by omega, buildPathFuel]
  rw [if_neg (by simp), if_neg ha5, hla]
  dsimp only
  rw [if_neg hb5, if_neg (fun h => hab h.symm), if_pos hbpos, hmid]
  dsimp only
  rw [if_neg (by
    intro h
    have := congrArg String.data h
    rw [String.data_append, String.data_append] at this
    simp at this)]
  rw [ite_self]

/-- C5 (witness): the cycle marker from a visited record, and a concrete
two-record cycle between records 10 and 11. -/
theorem path_cycle_marker_from_visited_witness :
    buildPathFuel [] (0 + 1) 7 [7] = some ("[Cycle-" ++ toString 7 ++ "]") ∧
    buildPathFuel [(10, ⟨"x", 11⟩), (11, ⟨"y", 10⟩)] (0 + 3) 10 [] =
      some ("[Cycle-" ++ toString 10 ++ "]" ++ "/" ++ "y" ++ "/" ++ "x") :=
  ⟨path_cycle_marker_from_visited.1 [] 0 7 [7] (by decide),
   path_cycle_marker_from_visited.2 [(10, ⟨"x", 11⟩), (11, ⟨"y", 10⟩)] 0 10 11
     "x" "y" (by decide) (by decide) (by decide) (by decide) (by decide)
     (by decide) (by decide)⟩

set_option maxRecDepth 100000 in
/-- C5 (counterexample): a 56-deep acyclic parent chain, longer than the
default depth bound 50 of the configuration, resolves to its full
56-component path and not to a cycle marker; the parser never consults
max_path_depth. -/
theorem long_chain_resolves_without_cycle_marker :
    chainM.length = 56 ∧
    get_full_path_for_record chainM 100 = some c5LongPath ∧
    c5LongPath.data.take 7 ≠ "[Cycle-".data ∧
    c5LongPath.length = 111 := by decide

/-- natCmp yields eq exactly on equal numbers. -/
theorem natCmp_eq_iff (a b : Nat) : natCmp a b = .eq ↔ a = b := by
  unfold natCmp
  split_ifs <;> simp <;> omega

/-- natCmp yields lt exactly on smaller first arguments. -/
theorem natCmp_lt_iff (a b : Nat) : natCmp a b = .lt ↔ a < b := by
  unfold natCmp
  split_ifs <;> simp <;> omega

/-- natCmp yields gt exactly on larger first arguments. -/
theorem natCmp_gt_iff (a b : Nat) : natCmp a b = .gt ↔ b < a := by
  unfold natCmp
  split_ifs <;> simp <;> omega

/-- Swapping the arguments of natCmp swaps the ordering. -/
theorem natCmp_swapped (a b : Nat) : natCmp b a = (natCmp a b).swap := by
  unfold natCmp
  split_ifs <;> first | rfl | omega

/-- instantCmp yields eq exactly on equal instants. -/
theorem instantCmp_eq_iff (a b : Instant) : instantCmp a b = .eq ↔ a = b := by
  obtain ⟨s1, n1⟩ := a
  obtain ⟨s2, n2⟩ := b
  unfold instantCmp
  dsimp only
  split_ifs with h1 h2
  · simp only [Instant.mk.injEq]
    constructor
    · intro h; exact absurd h (by simp)
    · intro h; exfalso; omega
  · simp only [Instant.mk.injEq]
    constructor
    · intro h; exact absurd h (by simp)
    · intro h; exfalso; omega
  · rw [natCmp_eq_iff]
    simp only [Instant.mk.injEq]
    constructor <;> intro h <;> omega

/-- instantCmp yields lt exactly on chronologically earlier instants. -/
theorem instantCmp_lt_iff (a b : Instant) :
    instantCmp a b = .lt ↔ a.secs < b.secs ∨ (a.secs = b.secs ∧ a.nanos < b.nanos) := by
  obtain ⟨s1, n1⟩ := a
  obtain ⟨s2, n2⟩ := b
  unfold instantCmp
  dsimp only
  split_ifs with h1 h2
  · constructor
    · intro _; exact Or.inl h1
    · intro _; rfl
  · constructor
    · intro h; exact absurd h (by simp)
    · intro h; exfalso; omega
  · rw [natCmp_lt_iff]
    constructor <;> intro h <;> omega

/-- Swapping the arguments of instantCmp swaps the ordering. -/
theorem instantCmp_swapped (a b : Instant) :
    instantCmp b a = (instantCmp a b).swap := by
  obtain ⟨s1, n1⟩ := a
  obtain ⟨s2, n2⟩ := b
  unfold instantCmp
  dsimp only
  split_ifs with h1 h2 <;>
    first | rfl | omega | exact natCmp_swapped n1 n2

/-- charsCmp of the two short forms yields eq exactly on equal sources. -/
theorem shortFormCmp_eq_iff (x y : TimestampSource) :
    charsCmp x.short_form.data y.short_form.data = .eq ↔ x = y := by
  cases x <;> cases y <;> decide

/-- Swapping the arguments of charsCmp on the short forms swaps the
ordering. -/
theorem shortFormCmp_swapped (x y : TimestampSource) :
    charsCmp y.short_form.data x.short_form.data =
      (charsCmp x.short_form.data y.short_form.data).swap := by
  cases x <;> cases y <;> decide

/-- C7 (confirmed): the timeline comparator is exactly the lexicographic
comparison of the three keys timestamp, timestamp-kind priority and
provenance short form: its eq and lt results are characterised by the
keys alone, swapping the arguments swaps the result (antisymmetry and
determinism), the kind priorities are Created 0, Modified 1, MftModified
2, Accessed 3, and the short form of FILE_NAME sorts strictly before
STANDARD_INFORMATION. -/
theorem timeline_sort_keys_characterization (a b : TimelineEvent) :
    (timeline_cmp a b = .eq ↔
      a.timestamp = b.timestamp ∧
      a.timestamp_type.sort_priority = b.timestamp_type.sort_priority ∧
      a.timestamp_source = b.timestamp_source) ∧
    (timeline_cmp a b = .lt ↔
      (a.timestamp.secs < b.timestamp.secs ∨
        (a.timestamp.secs = b.timestamp.secs ∧ a.timestamp.nanos < b.timestamp.nanos)) ∨
      (a.timestamp = b.timestamp ∧
        (a.timestamp_type.sort_priority < b.timestamp_type.sort_priority ∨
          (a.timestamp_type.sort_priority = b.timestamp_type.sort_priority ∧
            charsCmp a.timestamp_source.short_form.data
              b.timestamp_source.short_form.data = .lt)))) ∧
    (timeline_cmp b a = (timeline_cmp a b).swap) ∧
    (TimestampType.sort_priority .Created = 0 ∧
      TimestampType.sort_priority .Modified = 1 ∧
      TimestampType.sort_priority .MftModified = 2 ∧
      TimestampType.sort_priority .Accessed = 3) ∧
    charsCmp (TimestampSource.short_form .FileName).data
      (TimestampSource.short_form .StandardInformation).data = .lt := by
  refine ⟨?_, ?_, ?_, by decide, by decide⟩
  · unfold timeline_cmp
    cases hc : instantCmp a.timestamp b.timestamp with
    | lt =>
      simp only [ne_eq, reduceCtorEq, not_false_eq_true, if_true]
      constructor
      · intro h; exact absurd h (by simp)
      · rintro ⟨ht, -, -⟩
        have := (instantCmp_eq_iff a.timestamp b.timestamp).mpr ht
        rw [hc] at this
        exact absurd this (by simp)
    | gt =>
      simp only [ne_eq, reduceCtorEq, not_false_eq_true, if_true]
      constructor
      · intro h; exact absurd h (by simp)
      · rintro ⟨ht, -, -⟩
        have := (instantCmp_eq_iff a.timestamp b.timestamp).mpr ht
        rw [hc] at this
        exact absurd this (by simp)
    | eq =>
      have ht : a.timestamp = b.timestamp :=
        (instantCmp_eq_iff a.timestamp b.timestamp).mp hc
      simp only [ne_eq, not_true_eq_false, if_false]
      cases hc2 : natCmp a.timestamp_type.sort_priority
          b.timestamp_type.sort_priority with
      | lt =>
        simp only [ne_eq, reduceCtorEq, not_false_eq_true, if_true]
        constructor
        · intro h; exact absurd h (by simp)
        · rintro ⟨-, hp, -⟩
          have := (natCmp_eq_iff _ _).mpr hp
          rw [hc2] at this
          exact absurd this (by simp)
      | gt =>
        simp only [ne_eq, reduceCtorEq, not_false_eq_true, if_true]
        constructor
        · intro h; exact absurd h (by simp)
        · rintro ⟨-, hp, -⟩
          have := (natCmp_eq_iff _ _).mpr hp
          rw [hc2] at this
          exact absurd this (by simp)
      | eq =>
        have hp : a.timestamp_type.sort_priority = b.timestamp_type.sort_priority :=
          (natCmp_eq_iff _ _).mp hc2
        simp only [ne_eq, not_true_eq_false, if_false]
        rw [shortFormCmp_eq_iff]
        constructor
        · intro h; exact ⟨ht, hp, h⟩
        · rintro ⟨-, -, h⟩; exact h
  · unfold timeline_cmp
    cases hc : instantCmp a.timestamp b.timestamp with
    | lt =>
      simp only [ne_eq, reduceCtorEq, not_false_eq_true, if_true]
      have hlt := (instantCmp_lt_iff a.timestamp b.timestamp).mp hc
      constructor
      · intro _; exact Or.inl hlt
      · intro _; trivial
    | gt =>
      simp only [ne_eq, reduceCtorEq, not_false_eq_true, if_true]
      constructor
      · intro h; exact absurd h (by simp)
      · rintro (hlt | ⟨ht, -⟩)
        · have := (instantCmp_lt_iff a.timestamp b.timestamp).mpr hlt
          rw [hc] at this
          exact absurd this (by simp)
        · have := (instantCmp_eq_iff a.timestamp b.timestamp).mpr ht
          rw [hc] at this
          exact absurd this (by simp)
    | eq =>
      have ht : a.timestamp = b.timestamp :=
        (instantCmp_eq_iff a.timestamp b.timestamp).mp hc
      have hsecs : a.timestamp.secs = b.timestamp.secs := by rw [ht]
      have hnanos : a.timestamp.nanos = b.timestamp.nanos := by rw [ht]
      simp only [ne_eq, not_true_eq_false, if_false]
      cases hc2 : natCmp a.timestamp_type.sort_priority
          b.timestamp_type.sort_priority with
      | lt =>
        simp only [ne_eq, reduceCtorEq, not_false_eq_true, if_true]
        have hplt := (natCmp_lt_iff _ _).mp hc2
        constructor
        · intro _; exact Or.inr ⟨ht, Or.inl hplt⟩
        · intro _; trivial
      | gt =>
        simp only [ne_eq, reduceCtorEq, not_false_eq_true, if_true]
        have hpgt := (natCmp_gt_iff _ _).mp hc2
        constructor
        · intro h; exact absurd h (by simp)
        · rintro (hlt | ⟨-, hplt | ⟨hpe, -⟩⟩)
          · omega
          · omega
          · omega
      | eq =>
        have hp : a.timestamp_type.sort_priority = b.timestamp_type.sort_priority :=
          (natCmp_eq_iff _ _).mp hc2
        simp only [ne_eq, not_true_eq_false, if_false]
        constructor
        · intro h; exact Or.inr ⟨ht, Or.inr ⟨hp, h⟩⟩
        · rintro (hlt | ⟨-, hplt | ⟨-, h⟩⟩)
          · omega
          · omega
          · exact h
  · unfold timeline_cmp
    rw [instantCmp_swapped, natCmp_swapped, shortFormCmp_swapped]
    cases instantCmp a.timestamp b.timestamp <;>
      cases natCmp a.timestamp_type.sort_priority
        b.timestamp_type.sort_priority <;>
        rfl

/-- Unfolding one step of the filename selection loop. -/
theorem fnSelect_cons (bF : Option FileNameAttribute) (bP : Nat)
    (fa : FileNameAttribute) (l : List FileNameAttribute) :
    fnSelect (bF, bP) (fa :: l) =
      fnSelect
        (if fa.name_space.priority < bP then (some fa, fa.name_space.priority)
         else (bF, bP)) l := by
  unfold fnSelect
  rw [List.foldl_cons]

/-- The best-filename component of the attribute fold is the filename
selection over the FILE_NAME attributes the fold inspects: the record
updates of the other attribute kinds never touch it. -/
theorem attr_fold_snd (data : List Nat) (attrs : List (Nat × Nat)) :
    ∀ acc : Event × Option FileNameAttribute × Nat,
      (attrs.foldl (attr_step data) acc).2 =
        fnSelect acc.2 (collectFileNames data attrs) := by
  induction attrs with
  | nil => intro acc; rfl
  | cons attr rest ih =>
    intro acc
    obtain ⟨t, off⟩ := attr
    rw [List.foldl_cons, ih]
    unfold collectFileNames
    rw [List.filterMap_cons]
    by_cases h30 : t = 0x30
    · subst h30
      rw [if_pos rfl]
      cases hp : parse_file_name_fast (data.drop off) with
      | none =>
        have hs : (attr_step data acc (0x30, off)).2 = acc.2 := by
          unfold attr_step
          rw [if_neg (by norm_num), if_pos rfl, hp]
        rw [hs]
      | some fa =>
        by_cases hlt : fa.name_space.priority < acc.2.2
        · have hs : (attr_step data acc (0x30, off)).2 =
              (some fa, fa.name_space.priority) := by
            unfold attr_step
            rw [if_neg (by norm_num), if_pos rfl, hp]
            dsimp only
            rw [if_pos hlt]
          rw [hs]
          have := fnSelect_cons acc.2.1 acc.2.2 fa (List.filterMap
            (fun attr => if attr.1 = 0x30 then
              parse_file_name_fast (data.drop attr.2) else none) rest)
          rw [show (acc.2.1, acc.2.2) = acc.2 from rfl] at this
          rw [this, if_pos hlt]
        · have hs : (attr_step data acc (0x30, off)).2 = acc.2 := by
            unfold attr_step
            rw [if_neg (by norm_num), if_pos rfl, hp]
            dsimp only
            rw [if_neg hlt]
          rw [hs]
          have := fnSelect_cons acc.2.1 acc.2.2 fa (List.filterMap
            (fun attr => if attr.1 = 0x30 then
              parse_file_name_fast (data.drop attr.2) else none) rest)
          rw [show (acc.2.1, acc.2.2) = acc.2 from rfl] at this
          rw [this, if_neg hlt]
    · rw [if_neg h30]
      have hs : (attr_step data acc (t, off)).2 = acc.2 := by
        unfold attr_step
        by_cases h10 : t = 0x10
        · rw [if_pos h10]
        · rw [if_neg h10, if_neg h30]
          by_cases h80 : t = 0x80
          · rw [if_pos h80]
            by_cases hfs : acc.1.file_size = none
            · rw [if_pos hfs]
            · rw [if_neg hfs]
          · rw [if_neg h80]
      rw [hs]

/-- Every namespace priority is at most two. -/
theorem priority_le_two (ns : FileNamespace) : ns.priority ≤ 2 := by
  cases ns <;> decide

/-- Invariant of the filename selection loop: the running priority only
decreases, stays below every inspected priority, matches the priority of
the selected attribute, and a selection only appears from the accumulator
or the list. -/
theorem fnSelect_spec (l : List FileNameAttribute) :
    ∀ (bF : Option FileNameAttribute) (bP : Nat),
      (∀ f, bF = some f → bP = f.name_space.priority) →
      (fnSelect (bF, bP) l).2 ≤ bP ∧
      (∀ g ∈ l, (fnSelect (bF, bP) l).2 ≤ g.name_space.priority) ∧
      (∀ f, (fnSelect (bF, bP) l).1 = some f →
        (fnSelect (bF, bP) l).2 = f.name_space.priority ∧
        (bF = some f ∨ f ∈ l)) ∧
      ((fnSelect (bF, bP) l).1 = none →
        bF = none ∧ (fnSelect (bF, bP) l).2 = bP) := by
  induction l with
  | nil =>
    intro bF bP hinv
    refine ⟨le_refl _, by simp, ?_, fun h => ⟨h, rfl⟩⟩
    intro f hf
    exact ⟨hinv f hf, Or.inl hf⟩
  | cons fa rest ih =>
    intro bF bP hinv
    rw [fnSelect_cons]
    by_cases hlt : fa.name_space.priority < bP
    · rw [if_pos hlt]
      obtain ⟨ih1, ih2, ih3, ih4⟩ := ih (some fa) fa.name_space.priority
        (fun f hf => by injection hf with h; rw [h])
      refine ⟨by omega, ?_, ?_, ?_⟩
      · intro g hg
        rcases List.mem_cons.mp hg with hg | hg
        · rw [hg]; exact ih1
        · exact ih2 g hg
      · intro f hf
        obtain ⟨he, hor⟩ := ih3 f hf
        refine ⟨he, ?_⟩
        rcases hor with hor | hor
        · injection hor with h; exact Or.inr (List.mem_cons.mpr (Or.inl h.symm))
        · exact Or.inr (List.mem_cons.mpr (Or.inr hor))
      · intro hf
        obtain ⟨he, -⟩ := ih4 hf
        exact absurd he (by simp)
    · rw [if_neg hlt]
      obtain ⟨ih1, ih2, ih3, ih4⟩ := ih bF bP hinv
      refine ⟨ih1, ?_, ?_, ih4⟩
      · intro g hg
        rcases List.mem_cons.mp hg with hg | hg
        · rw [hg]; omega
        · exact ih2 g hg
      · intro f hf
        obtain ⟨he, hor⟩ := ih3 f hf
        refine ⟨he, ?_⟩
        rcases hor with hor | hor
        · exact Or.inl hor
        · exact Or.inr (List.mem_cons.mpr (Or.inr hor))

/-- Applying a FILE_NAME attribute always sets the filename. -/
theorem applyBestFilename_filename (record : Event) (fa : FileNameAttribute) :
    (applyBestFilename record fa).filename = some fa.name := by
  unfold applyBestFilename
  dsimp only
  split_ifs <;> rfl

/-- Applying a FILE_NAME attribute always sets the parent reference. -/
theorem applyBestFilename_parent (record : Event) (fa : FileNameAttribute) :
    (applyBestFilename record fa).parent_directory = some fa.parent_entry := by
  unfold applyBestFilename
  dsimp only
  split_ifs <;> rfl

/-- C8 (confirmed): the FILE_NAME attribute retained for filename and
parent is the selected one of lowest namespace priority, with priorities
Win32 = Win32AndDos = 0, DOS = 1, POSIX = 2: whenever the selection over
the FILE_NAME attributes of the record yields an attribute, the decoded
record carries its name and parent, it belongs to the record, and its
priority is minimal; the selection succeeds whenever any FILE_NAME
attribute parses; and given one Win32 and one DOS attribute in either
order, the Win32 one is selected. -/
theorem filename_selection_min_priority (data : List Nat)
    (header : EntryHeader) (record : Event) :
    (FileNamespace.priority .Win32 = 0 ∧ FileNamespace.priority .Win32AndDos = 0 ∧
      FileNamespace.priority .DOS = 1 ∧ FileNamespace.priority .POSIX = 2) ∧
    (∀ fa : FileNameAttribute,
      (fnSelect (none, 255) (collectFileNames data (find_attributes_scalar data
        header.first_attribute_record_offset [0x10, 0x30, 0x80]))).1 = some fa →
      (parse_attributes_fast data header record).filename = some fa.name ∧
      (parse_attributes_fast data header record).parent_directory =
        some fa.parent_entry ∧
      fa ∈ collectFileNames data (find_attributes_scalar data
        header.first_attribute_record_offset [0x10, 0x30, 0x80]) ∧
      (∀ fb ∈ collectFileNames data (find_attributes_scalar data
          header.first_attribute_record_offset [0x10, 0x30, 0x80]),
        fa.name_space.priority ≤ fb.name_space.priority)) ∧
    (collectFileNames data (find_attributes_scalar data
        header.first_attribute_record_offset [0x10, 0x30, 0x80]) ≠ [] →
      ∃ fa, (fnSelect (none, 255) (collectFileNames data
        (find_attributes_scalar data header.first_attribute_record_offset
          [0x10, 0x30, 0x80]))).1 = some fa) ∧
    (∀ w d : FileNameAttribute, w.name_space = .Win32 → d.name_space = .DOS →
      (fnSelect (none, 255) [w, d]).1 = some w ∧
      (fnSelect (none, 255) [d, w]).1 = some w) := by
  have hnone : ∀ f : FileNameAttribute,
      (none : Option FileNameAttribute) = some f → (255 : Nat) = f.name_space.priority :=
    fun f hf => Option.noConfusion hf
  obtain ⟨hs1, hs2, hs3, hs4⟩ := fnSelect_spec
    (collectFileNames data (find_attributes_scalar data
      header.first_attribute_record_offset [0x10, 0x30, 0x80])) none 255 hnone
  have hparse : ∀ fa,
      (fnSelect (none, 255) (collectFileNames data (find_attributes_scalar data
        header.first_attribute_record_offset [0x10, 0x30, 0x80]))).1 = some fa →
      parse_attributes_fast data header record =
        applyBestFilename
          ((find_attributes_scalar data header.first_attribute_record_offset
            [0x10, 0x30, 0x80]).foldl (attr_step data) (record, none, 255)).1 fa := by
    intro fa hfa
    unfold parse_attributes_fast
    dsimp only
    rw [attr_fold_snd]
    rw [show ((record, none, 255) :
        Event × Option FileNameAttribute × Nat).2 = (none, 255) from rfl]
    rw [hfa]
  refine ⟨by decide, ?_, ?_, ?_⟩
  · intro fa hfa
    rw [hparse fa hfa, applyBestFilename_filename, applyBestFilename_parent]
    obtain ⟨he, hor⟩ := hs3 fa hfa
    refine ⟨rfl, rfl, ?_, ?_⟩
    · rcases hor with hor | hor
      · exact absurd hor (by simp)
      · exact hor
    · intro fb hfb
      have := hs2 fb hfb
      omega
  · intro hne
    cases hsel : (fnSelect (none, 255) (collectFileNames data
        (find_attributes_scalar data header.first_attribute_record_offset
          [0x10, 0x30, 0x80]))).1 with
    | some fa => exact ⟨fa, rfl⟩
    | none =>
      exfalso
      obtain ⟨-, h255⟩ := hs4 hsel
      obtain ⟨g, hg⟩ := List.exists_mem_of_ne_nil _ hne
      have h1 := hs2 g hg
      have h2 := priority_le_two g.name_space
      omega
  · intro w d hw hd
    constructor
    · rw [fnSelect_cons, if_pos (by rw [hw]; decide), fnSelect_cons,
        if_neg (by rw [hw, hd]; decide)]
      rfl
    · rw [fnSelect_cons, if_pos (by rw [hd]; decide), fnSelect_cons,
        if_pos (by rw [hw, hd]; decide)]
      rfl

set_option maxRecDepth 100000 in
/-- C8 (witness): the selection at the concrete two-name record fnBuf,
carrying a Win32 attribute named W and a DOS attribute named D: the
decoded record keeps the Win32 name and parent. -/
theorem filename_selection_min_priority_witness :
    (parse_attributes_fast fnBuf fnHeader Event.empty).filename = some faW.name ∧
    (parse_attributes_fast fnBuf fnHeader Event.empty).parent_directory =
      some faW.parent_entry ∧
    faW ∈ collectFileNames fnBuf (find_attributes_scalar fnBuf
      fnHeader.first_attribute_record_offset [0x10, 0x30, 0x80]) ∧
    (∀ fb ∈ collectFileNames fnBuf (find_attributes_scalar fnBuf
        fnHeader.first_attribute_record_offset [0x10, 0x30, 0x80]),
      faW.name_space.priority ≤ fb.name_space.priority) :=
  (filename_selection_min_priority fnBuf fnHeader Event.empty).2.1 faW (by decide)

/-- Doubling quotes is the identity on fields without a double quote. -/
theorem csvDoubleQuotes_of_not_contains (field : List Char)
    (h : '"' ∉ field) : csvDoubleQuotes field = field := by
  induction field with
  | nil => rfl
  | cons c rest ih =>
    have hc : c ≠ '"' := fun hc => h (hc ▸ List.mem_cons_self c rest)
    have hrest : '"' ∉ rest := fun hr => h (List.mem_cons.mpr (Or.inr hr))
    unfold csvDoubleQuotes
    rw [List.flatMap_cons]
    rw [if_neg hc]
    have := ih hrest
    unfold csvDoubleQuotes at this
    rw [this]
    rfl

/-- escape_csv_field always produces the field wrapped in one pair of
double quotes with every internal double quote doubled: when the field
needs no quoting it contains no double quote, so doubling is the
identity. -/
theorem escape_csv_field_eq (field : List Char) :
    escape_csv_field field = '"' :: csvDoubleQuotes field ++ ['"'] := by
  unfold escape_csv_field
  split_ifs with h
  · rfl
  · have hq : '"' ∉ field := by
      intro hmem
      apply h
      unfold csvNeedsQuoting
      have : field.contains '"' = true := List.elem_eq_true_of_mem hmem
      simp [this]
      tauto
    rw [csvDoubleQuotes_of_not_contains field hq]

/-- C9 (amended): in every timeline row, the filename and the location
fields are wrapped in double quotes with embedded double quotes doubled
and all other characters (newlines included) preserved verbatim, while
the timestamp, event-description and file-size fields are written
unquoted, exactly as produced upstream. -/
theorem timeline_row_quoting_amended (event : TimelineEvent)
    (formatted_time type_with_source : List Char) :
    write_timeline_row event formatted_time type_with_source =
      ('"' :: csvDoubleQuotes event.filename.data ++ ['"']) ++ [','] ++
      formatted_time ++ [','] ++ type_with_source ++ [','] ++
      (Nat.repr (timeline_file_size event)).data ++ [','] ++
      ('"' :: csvDoubleQuotes event.location.data ++ ['"']) := by
  unfold write_timeline_row timeline_row
  rw [escape_csv_field_eq, escape_csv_field_eq]

/-- C9 (counterexample): in the concrete row for c9Event, the timestamp,
event-description and file-size columns are not wrapped in double quotes;
only the filename and location columns are. -/
theorem timeline_row_unquoted_fields :
    csvSplit (write_timeline_row c9Event
        ("Thu 1970-01-01 00:00:01 UTC").data
        ("File/folder created ($STANDARD_INFORMATION)").data) =
      [("\"a.txt\"").data, ("Thu 1970-01-01 00:00:01 UTC").data,
        ("File/folder created ($STANDARD_INFORMATION)").data, ("0").data,
        ("\"loc\"").data] ∧
    ("Thu 1970-01-01 00:00:01 UTC").data.head? ≠ some '"' ∧
    ("File/folder created ($STANDARD_INFORMATION)").data.head? ≠ some '"' ∧
    ("0").data.head? ≠ some '"' := by decide

/-- C10 (confirmed): the file-size column of a timeline row is zero for
every directory event, whatever size the decoder extracted, and zero for
every event without a known size; the row writer prints exactly this
value. -/
theorem timeline_size_zero_for_directories (event : TimelineEvent)
    (formatted_time type_with_source : List Char) :
    (event.is_directory = true → timeline_file_size event = 0) ∧
    (event.file_size = none → timeline_file_size event = 0) ∧
    write_timeline_row event formatted_time type_with_source =
      timeline_row event.filename.data formatted_time type_with_source
        (timeline_file_size event) event.location.data := by
  refine ⟨?_, ?_, rfl⟩
  · intro h
    unfold timeline_file_size
    rw [if_pos h]
  · intro h
    unfold timeline_file_size
    split_ifs with hd
    · rfl
    · rw [h]
      rfl

/-- C10 (witness): the concrete directory event with extracted size 42
gets size column zero, and so does the concrete sizeless event. -/
theorem timeline_size_zero_for_directories_witness :
    timeline_file_size c10DirEvent = 0 ∧ timeline_file_size c10NoSizeEvent = 0 :=
  ⟨(timeline_size_zero_for_directories c10DirEvent [] []).1 rfl,
   (timeline_size_zero_for_directories c10NoSizeEvent [] []).2.1 rfl⟩

end TlSpec
